import Mathlib

/-!
# Verification of the `@cloud-copilot/log` structured logger

A shallow embedding of `src/log.ts` (and of the second reference variant of
`logAt` found in the repository) together with theorems settling the frozen
claims about the specification.

JavaScript runtime values are modelled by the inductive type `JSVal`:
numbers are modelled as integers (no claim depends on non-integer numeric
behaviour), plain objects and the log entry itself are insertion-ordered
association lists of string keys, and native `Error` instances carry a name,
a message and an optional stack string.
-/

set_option autoImplicit false

namespace CloudLog

/-- A JavaScript runtime value, as far as the logger inspects it. -/
inductive JSVal where
  | vUndefined : JSVal
  | vNull : JSVal
  | vBool (b : Bool) : JSVal
  | vNum (n : Int) : JSVal
  | vStr (s : String) : JSVal
  | vArr (elems : List JSVal) : JSVal
  | vObj (fields : List (String × JSVal)) : JSVal
  | vErr (name message : String) (stack : Option String) : JSVal

open JSVal

/-- The five severity names, from `LogLevels` in `log.ts`. -/
def LogLevels : List String := ["error", "warn", "info", "debug", "trace"]

/-- The closed set of severities (the `LogLevel` string union type). -/
inductive LogLevel where
  | error : LogLevel
  | warn : LogLevel
  | info : LogLevel
  | debug : LogLevel
  | trace : LogLevel
deriving DecidableEq

/-- The string name of a severity. -/
def levelName : LogLevel → String
  | .error => "error"
  | .warn => "warn"
  | .info => "info"
  | .debug => "debug"
  | .trace => "trace"

/-- The rank map `LEVELS` from `log.ts`. -/
def LEVELS : LogLevel → Nat
  | .error => 0
  | .warn => 1
  | .info => 2
  | .debug => 3
  | .trace => 4

/-- Decode a string into a member of the severity set (key lookup in `LEVELS`). -/
def parseLevel (s : String) : Option LogLevel :=
  if s = "error" then some .error
  else if s = "warn" then some .warn
  else if s = "info" then some .info
  else if s = "debug" then some .debug
  else if s = "trace" then some .trace
  else none

/-- `isLogLevel` from `log.ts`: `level !== undefined && LEVELS.hasOwnProperty(level)`.
`none` models an `undefined` argument. -/
def isLogLevel : Option String → Bool
  | none => false
  | some s => (parseLevel s).isSome

/-- `typeof a === 'object'` (true for `null`, arrays, plain objects and errors). -/
def isObjectType : JSVal → Bool
  | vNull => true
  | vArr _ => true
  | vObj _ => true
  | vErr _ _ _ => true
  | _ => false

/-- `isError` from `log.ts`: a native `Error` instance, or a non-null object
with both a `message` and a `name` property. -/
def isError : JSVal → Bool
  | vErr _ _ _ => true
  | vObj fs => (fs.any fun p => p.1 = "message") && (fs.any fun p => p.1 = "name")
  | _ => false

/-- Property read `a[k]` (also the read a destructuring performs).  On a
`null` or `undefined` base JavaScript throws a TypeError, modelled as `none`;
on any other base the read succeeds: a present property yields its value, a
missing one reads as `undefined`, and a primitive base is boxed and yields
`undefined` for the keys the logger dereferences. -/
def getProp : JSVal → String → Option JSVal
  | vNull, _ => none
  | vUndefined, _ => none
  | vObj fs, k =>
    some (match fs.find? (fun p => p.1 = k) with
          | some p => p.2
          | none => vUndefined)
  | vErr n m st, k =>
    some (if k = "name" then vStr n
          else if k = "message" then vStr m
          else if k = "stack" then
            match st with
            | some s => vStr s
            | none => vUndefined
          else vUndefined)
  | _, _ => some vUndefined

/-- The value a property read yields when it does not throw. -/
def getPropD (e : JSVal) (k : String) : JSVal :=
  (getProp e k).getD vUndefined

/-- The nullish-coalescing operator `a ?? b`. -/
def jsNullish (a b : JSVal) : JSVal :=
  match a with
  | vNull => b
  | vUndefined => b
  | _ => a

/-- Is the value a string primitive (`typeof x === 'string'`)? -/
def JSVal.isStr : JSVal → Bool
  | vStr _ => true
  | _ => false

/-- Is the value `null` (the strict comparison `x === null`)? -/
def isNull : JSVal → Bool
  | vNull => true
  | _ => false

/-- Is the value `undefined` (the strict comparison `x === undefined`)? -/
def isUndef : JSVal → Bool
  | vUndefined => true
  | _ => false

mutual

/-- JavaScript `String(x)` coercion of the values the logger can meet. -/
def jsToString : JSVal → String
  | vUndefined => "undefined"
  | vNull => "null"
  | vBool b => if b then "true" else "false"
  | vNum n => toString n
  | vStr s => s
  | vArr xs => jsJoinElems xs
  | vObj _ => "[object Object]"
  | vErr n m _ => if n = "" then m else if m = "" then n else n ++ ": " ++ m
termination_by x => (sizeOf x, 0)

/-- `Array.prototype.toString`: elements joined with commas. -/
def jsJoinElems : List JSVal → String
  | [] => ""
  | [x] => jsElemToString x
  | x :: y :: xs => jsElemToString x ++ "," ++ jsJoinElems (y :: xs)
termination_by xs => (sizeOf xs, 0)

/-- An element inside `Array.prototype.join`: `null`/`undefined` render empty. -/
def jsElemToString : JSVal → String
  | vNull => ""
  | vUndefined => ""
  | x => jsToString x
termination_by x => (sizeOf x, 1)

end

/-- One hexadecimal digit (lowercase), for JSON string escapes. -/
def hexDigit (n : Nat) : Char :=
  if n < 10 then Char.ofNat (48 + n) else Char.ofNat (87 + n)

/-- JSON escaping of a single character, as `JSON.stringify` performs it. -/
def escChar (c : Char) : String :=
  if c = '"' then "\\\""
  else if c = '\\' then "\\\\"
  else if c.toNat = 8 then "\\b"
  else if c.toNat = 9 then "\\t"
  else if c.toNat = 10 then "\\n"
  else if c.toNat = 12 then "\\f"
  else if c.toNat = 13 then "\\r"
  else if c.toNat < 32 then
    "\\u00" ++ String.singleton (hexDigit (c.toNat / 16)) ++ String.singleton (hexDigit (c.toNat % 16))
  else String.singleton c

/-- A JSON string literal for `s`. -/
def jsonQuote (s : String) : String :=
  "\"" ++ String.join (s.toList.map escChar) ++ "\""

mutual

/-- `JSON.stringify`; `none` is the `undefined` result (only for an
`undefined` argument among the shapes modelled). A native error has no own
enumerable properties, so it serializes as an empty object. -/
def jsonStringify : JSVal → Option String
  | vUndefined => none
  | vNull => some "null"
  | vBool b => some (if b then "true" else "false")
  | vNum n => some (toString n)
  | vStr s => some (jsonQuote s)
  | vErr _ _ _ => some "\x7b\x7d"
  | vArr xs => some ("[" ++ String.intercalate "," (jsonElems xs) ++ "]")
  | vObj fs => some ("\x7b" ++ String.intercalate "," (jsonMembers fs) ++ "\x7d")
termination_by x => sizeOf x

/-- Array elements in `JSON.stringify`: `undefined` becomes `null`. -/
def jsonElems : List JSVal → List String
  | [] => []
  | x :: xs => ((jsonStringify x).getD "null") :: jsonElems xs
termination_by xs => sizeOf xs

/-- Object members in `JSON.stringify`: properties whose value serializes to
`undefined` are dropped. -/
def jsonMembers : List (String × JSVal) → List String
  | [] => []
  | (k, v) :: ps =>
    match jsonStringify v with
    | none => jsonMembers ps
    | some s => (jsonQuote k ++ ":" ++ s) :: jsonMembers ps
termination_by ps => sizeOf ps

end

/-- One argument inside `serializeArgs` from `log.ts`:
string → itself; native error → `stack || message`; `undefined` → the text
`"undefined"`; anything else → `JSON.stringify`. -/
def serializeArg : JSVal → String
  | vStr s => s
  | vErr _ m st =>
    (match st with
     | some s => if s = "" then m else s
     | none => m)
  | vUndefined => "undefined"
  | a => (jsonStringify a).getD "undefined"

/-- `serializeArgs` from `log.ts`: map `serializeArg` and join with spaces. -/
def serializeArgs (args : List JSVal) : String :=
  String.intercalate " " (args.map serializeArg)

/-- `mapError` from `log.ts`: normalize anything error-like to a consistent
shape.  The destructuring `const \x7bname, message, stack, code\x7d = e` throws a
TypeError when `e` is `null` or `undefined`, modelled as `none`. -/
def mapError (e : JSVal) : Option JSVal := do
  let name ← getProp e "name"
  let message ← getProp e "message"
  let stack ← getProp e "stack"
  let code ← getProp e "code"
  pure (vObj
    ([("name", if name.isStr then name else vStr "Error"),
      ("message", if message.isStr then message else vStr (jsToString (jsNullish message (vStr "")))),
      ("stack", if stack.isStr then stack else vUndefined)]
     ++ (if isUndef code then [] else [("code", code)])))

/-- The per-error shape built inline by the second `logAt` variant
(`src/unnamed/part_001`): `\x7bname: e.name, message: e.message, stack: e.stack\x7d`
with no coercions; the property reads throw (`none`) on a nullish `e`. -/
def mapErrorB (e : JSVal) : Option JSVal := do
  let name ← getProp e "name"
  let message ← getProp e "message"
  let stack ← getProp e "stack"
  pure (vObj [("name", name), ("message", message), ("stack", stack)])

/-- The record `mapError` produces inside `logAt`.  Every value reaching it
has passed the `isError` filter, which excludes `null` and `undefined` — the
only inputs on which the destructuring throws — so the read always succeeds
there (`mapError_isSome_of_isError`) and the default is dead code. -/
def mapErrorVal (e : JSVal) : JSVal :=
  (mapError e).getD vUndefined

/-- The record the `part_001` variant produces inside its `logAt`; as with
`mapErrorVal`, the `isError` guard makes the default dead code. -/
def mapErrorBVal (e : JSVal) : JSVal :=
  (mapErrorB e).getD vUndefined

/-! ## The log entry

A JavaScript object preserving property insertion order: an association list
with unique keys.  Setting a property that already exists updates it in place;
setting a fresh property appends it. -/

/-- The `entry` object under construction in `logAt`. -/
abbrev Entry := List (String × JSVal)

/-- JavaScript property write `e[k] = v`: update in place if present, else
append. -/
def setKey : Entry → String → JSVal → Entry
  | [], k, v => [(k, v)]
  | p :: rest, k, v => if p.1 = k then (k, v) :: rest else p :: setKey rest k v

/-- Property lookup in an entry: the first field with the given key. -/
def getKey : Entry → String → Option JSVal
  | [], _ => none
  | p :: rest, k => if p.1 = k then some p.2 else getKey rest k

/-- The own enumerable properties of a value, in order, as `Object.assign`
copies them: the fields of a plain object, the indexed elements of an array,
nothing for primitives or native errors. -/
def ownFields : JSVal → List (String × JSVal)
  | vObj fs => fs
  | vArr xs => xs.enum.map fun p => (toString p.1, p.2)
  | _ => []

/-- `Object.assign(e, o)`: copy the own enumerable properties of `o` onto `e`
in order. -/
def objectAssign (e : Entry) (o : JSVal) : Entry :=
  (ownFields o).foldl (fun acc p => setKey acc p.1 p.2) e

/-! ## Argument classification (`logAt`) -/

/-- A context object: `typeof a === 'object' && a !== null && !isError(a)`. -/
def isContextArg (a : JSVal) : Bool :=
  isObjectType a && !isNull a && !isError a

/-- A message fragment: `typeof a !== 'object' || a === null`. -/
def isMessageArg (a : JSVal) : Bool :=
  !isObjectType a || isNull a

/-! ## Entry construction and emission -/

/-- The part of `logAt` shared verbatim by both variants: base fields, then
classification, context merging and message rendering. -/
def preEntry (ts : String) (level : LogLevel) (args : List JSVal) : Entry :=
  let entry : Entry := [("timestamp", vStr ts), ("level", vStr (levelName level))]
  let objectArgs := args.filter isContextArg
  let messageArgs := args.filter isMessageArg
  let entry := objectArgs.foldl objectAssign entry
  let msg := serializeArgs messageArgs
  if msg ≠ "" then setKey entry "message" (vStr msg) else entry

/-- The entry built by `logAt` in `src/log.ts`: `error` is the first
normalized error, `error_count` the number of error-like arguments, and
`errors` the full normalized list when there is more than one. -/
def buildEntry (ts : String) (level : LogLevel) (args : List JSVal) : Entry :=
  let errorArgs := args.filter isError
  match errorArgs with
  | [] => preEntry ts level args
  | e0 :: rest =>
    let entry := setKey (preEntry ts level args) "error" (mapErrorVal e0)
    let entry := setKey entry "error_count" (vNum (e0 :: rest).length)
    if (e0 :: rest).length > 1 then
      setKey entry "errors" (vArr ((e0 :: rest).map mapErrorVal))
    else entry

/-- The entry built by the `logAt` variant in `src/unnamed/part_001`: all
error-like arguments go into a single `errors` array. -/
def buildEntryB (ts : String) (level : LogLevel) (args : List JSVal) : Entry :=
  let errorArgs := args.filter isError
  if errorArgs.length > 0 then
    setKey (preEntry ts level args) "errors" (vArr (errorArgs.map mapErrorBVal))
  else preEntry ts level args

/-- The console destination a serialized entry is written to. -/
inductive ConsoleStream where
  | errS : ConsoleStream
  | warnS : ConsoleStream
  | infoS : ConsoleStream
  | logS : ConsoleStream
deriving DecidableEq

/-- The `switch` at the end of `logAt`: `error`/`warn`/`info` go to their own
console method, `debug` and `trace` share `console.log`. -/
def consoleFor : LogLevel → ConsoleStream
  | .error => .errS
  | .warn => .warnS
  | .info => .infoS
  | _ => .logS

/-- `logAt` from `src/log.ts`.  `ts` is the value `new Date().toISOString()`
produced at entry construction.  The result is `none` when the call is gated
out (nothing written, no downstream work), otherwise the single emission: the
destination stream and the entry whose `JSON.stringify` image is the written
line. -/
def logAt (ts : String) (currentLevel level : LogLevel) (args : List JSVal) :
    Option (ConsoleStream × Entry) :=
  if LEVELS level > LEVELS currentLevel then none
  else some (consoleFor level, buildEntry ts level args)

/-- The `logAt` variant from `src/unnamed/part_001`, differing only in error
attachment. -/
def logAtB (ts : String) (currentLevel level : LogLevel) (args : List JSVal) :
    Option (ConsoleStream × Entry) :=
  if LEVELS level > LEVELS currentLevel then none
  else some (consoleFor level, buildEntryB ts level args)

/-! ## Logger facade state -/

/-- The `StandardLogger` constructor: `initialLogLevel && isLogLevel(...)`
keeps a valid (hence truthy) level name, anything else falls back to `warn`.
`none` models an absent argument. -/
def construct (initialLogLevel : Option String) : LogLevel :=
  match initialLogLevel with
  | none => .warn
  | some s =>
    if s = "" then .warn
    else
      match parseLevel s with
      | some l => l
      | none => .warn

/-- `setLogLevel` from `src/log.ts`: an invalid name throws
`Invalid log level: <value>`, a valid one becomes the new threshold. -/
def setLogLevel (level : String) : Except String LogLevel :=
  match parseLevel level with
  | none => Except.error ("Invalid log level: " ++ level)
  | some l => Except.ok l

/-- The observable state transition of `logger.setLogLevel(x)`: the new
threshold together with the message of the raised error, if any.  A throw
leaves the stored threshold untouched. -/
def applySetLogLevel (current : LogLevel) (level : String) : LogLevel × Option String :=
  match setLogLevel level with
  | Except.ok l => (l, none)
  | Except.error m => (current, some m)

/-! ## Observation helpers used by the claims -/

/-- The value the last context object owning key `k` supplies for it, if any:
the precedence order of the left-to-right shallow merge. -/
def lastCtxVal (ctxs : List JSVal) (k : String) : Option JSVal :=
  match ctxs.reverse.find? (fun o => (ownFields o).any fun p => p.1 = k) with
  | some o => ((ownFields o).reverse.find? (fun p => p.1 = k)).map (fun p => p.2)
  | none => none

/-- The top-level fields of an entry that survive a `JSON.stringify`/
`JSON.parse` round trip: properties holding `undefined` are dropped by
`JSON.stringify`. -/
def roundTripFields (e : Entry) : Entry :=
  e.filter fun p => !isUndef p.2

/-- Modelled from the spec: an ISO-8601 instant in the exact shape
`Date.prototype.toISOString` produces (`YYYY-MM-DDTHH:MM:SS.mmmZ`). -/
def isISO8601 (s : String) : Bool :=
  match s.toList with
  | [y1, y2, y3, y4, '-', m1, m2, '-', d1, d2, 'T',
     h1, h2, ':', n1, n2, ':', s1, s2, '.', f1, f2, f3, 'Z'] =>
    [y1, y2, y3, y4, m1, m2, d1, d2, h1, h2, n1, n2, s1, s2, f1, f2, f3].all Char.isDigit
  | _ => false

/-- The spec's description of rendering one message fragment: strings pass
through unchanged, `undefined` renders as the literal text `undefined`,
everything else is JSON-encoded. -/
def renderFragmentSpec (a : JSVal) : String :=
  match a with
  | vStr s => s
  | vUndefined => "undefined"
  | a => (jsonStringify a).getD "undefined"

/-! ## Lemmas about entry updates and lookups -/

theorem getKey_setKey (e : Entry) (k : String) (v : JSVal) (k' : String) :
    getKey (setKey e k v) k' = if k' = k then some v else getKey e k' := by
  induction e with
  | nil => simp [setKey, getKey, eq_comm]
  | cons p rest ih =>
    by_cases hpk : p.1 = k
    · by_cases hk : k' = k
      · subst hk
        simp [setKey, getKey, hpk]
      · have hkk : ¬k = k' := fun h => hk h.symm
        simp [setKey, getKey, hpk, hk, hkk]
    · by_cases hk : k' = k
      · subst hk
        simp [setKey, getKey, hpk, ih]
      · simp [setKey, getKey, hpk, hk, ih]

theorem getKey_foldl_setKey (fs : List (String × JSVal)) (e : Entry) (k : String) :
    getKey (fs.foldl (fun acc p => setKey acc p.1 p.2) e) k =
      match fs.reverse.find? (fun p => p.1 = k) with
      | some p => some p.2
      | none => getKey e k := by
  induction fs generalizing e with
  | nil => simp
  | cons p fs ih =>
    simp only [List.foldl_cons, List.reverse_cons]
    rw [ih, List.find?_append]
    rcases h : fs.reverse.find? (fun q => decide (q.1 = k)) with _ | q
    · rw [h]
      simp only [Option.none_or]
      rw [getKey_setKey]
      by_cases hk : p.1 = k
      · have hk' : k = p.1 := hk.symm
        simp [List.find?, hk, if_pos hk']
      · have hk' : ¬k = p.1 := fun hh => hk hh.symm
        simp [List.find?, hk, hk']
    · rw [h]
      simp

theorem getKey_objectAssign (e : Entry) (o : JSVal) (k : String) :
    getKey (objectAssign e o) k =
      match (ownFields o).reverse.find? (fun p => p.1 = k) with
      | some p => some p.2
      | none => getKey e k :=
  getKey_foldl_setKey (ownFields o) e k

theorem lastCtxVal_cons (o : JSVal) (ctxs : List JSVal) (k : String) :
    lastCtxVal (o :: ctxs) k =
      match lastCtxVal ctxs k with
      | some v => some v
      | none => ((ownFields o).reverse.find? (fun p => p.1 = k)).map (fun p => p.2) := by
  unfold lastCtxVal
  simp only [List.reverse_cons, List.find?_append]
  rcases h : ctxs.reverse.find? (fun o' => (ownFields o').any fun p => p.1 = k) with _ | o'
  · rcases ho : (ownFields o).any (fun p => p.1 = k) with _ | _
    · have hnone : (ownFields o).reverse.find? (fun p => p.1 = k) = none := by
        rw [List.find?_eq_none]
        intro q hq hpq
        have : (ownFields o).any (fun p => p.1 = k) = true :=
          List.any_eq_true.2 ⟨q, List.mem_reverse.1 hq, hpq⟩
        rw [ho] at this
        exact Bool.false_ne_true this
      simp [List.find?, ho, hnone]
    · simp [List.find?, ho]
  · have hP := List.find?_some h
    obtain ⟨q, hq, hqk⟩ := List.any_eq_true.1 hP
    have hsome : ((ownFields o').reverse.find? (fun p => p.1 = k)).isSome :=
      List.find?_isSome.2 ⟨q, List.mem_reverse.2 hq, hqk⟩
    obtain ⟨r, hr⟩ := Option.isSome_iff_exists.1 hsome
    simp [hr]

theorem getKey_foldl_assign (ctxs : List JSVal) (e : Entry) (k : String) :
    getKey (ctxs.foldl objectAssign e) k =
      match lastCtxVal ctxs k with
      | some v => some v
      | none => getKey e k := by
  induction ctxs generalizing e with
  | nil => simp [lastCtxVal]
  | cons o ctxs ih =>
    rw [List.foldl_cons, ih, lastCtxVal_cons]
    rcases lastCtxVal ctxs k with _ | v
    · rw [getKey_objectAssign]
      rcases hfind : (ownFields o).reverse.find? (fun p => p.1 = k) with _ | q <;> simp [hfind]
    · simp

theorem getKey_preEntry (ts : String) (lvl : LogLevel) (args : List JSVal) (k : String) :
    getKey (preEntry ts lvl args) k =
      if k = "message" ∧ serializeArgs (args.filter isMessageArg) ≠ "" then
        some (vStr (serializeArgs (args.filter isMessageArg)))
      else
        match lastCtxVal (args.filter isContextArg) k with
        | some v => some v
        | none => getKey [("timestamp", vStr ts), ("level", vStr (levelName lvl))] k := by
  unfold preEntry
  by_cases hm : serializeArgs (args.filter isMessageArg) = ""
  · simp [hm, getKey_foldl_assign]
  · by_cases hk : k = "message"
    · simp [hm, hk, getKey_setKey, getKey_foldl_assign]
    · simp [hm, hk, getKey_setKey, getKey_foldl_assign]

theorem getKey_buildEntry_of_ne (ts : String) (lvl : LogLevel) (args : List JSVal) (k : String)
    (h1 : k ≠ "error") (h2 : k ≠ "error_count") (h3 : k ≠ "errors") :
    getKey (buildEntry ts lvl args) k = getKey (preEntry ts lvl args) k := by
  unfold buildEntry
  rcases args.filter isError with _ | ⟨e0, rest⟩
  · rfl
  · simp only []
    split
    · simp [getKey_setKey, h1, h2, h3]
    · simp [getKey_setKey, h1, h2, h3]

theorem getKey_buildEntryB_of_ne (ts : String) (lvl : LogLevel) (args : List JSVal) (k : String)
    (h3 : k ≠ "errors") :
    getKey (buildEntryB ts lvl args) k = getKey (preEntry ts lvl args) k := by
  unfold buildEntryB
  by_cases h : (args.filter isError).length > 0
  · simp [h, getKey_setKey, h3]
  · simp [h]

theorem getKey_roundTripFields (e : Entry) (k : String) (v : JSVal)
    (hv : isUndef v = false) (h : getKey e k = some v) :
    getKey (roundTripFields e) k = some v := by
  induction e with
  | nil => simp [getKey] at h
  | cons p rest ih =>
    by_cases hk : p.1 = k
    · rw [getKey, if_pos hk] at h
      have hp : p.2 = v := Option.some.inj h
      simp [roundTripFields, List.filter_cons, getKey, hk, hp, hv]
    · rw [getKey, if_neg hk] at h
      have ihh := ih h
      by_cases hu : isUndef p.2 = true
      · simpa [roundTripFields, List.filter_cons, hu] using ihh
      · simpa [roundTripFields, List.filter_cons, hu, getKey, hk] using ihh

/-! ## Lemmas about classification -/

theorem classify_exact (a : JSVal) :
    (isMessageArg a = true ∧ isContextArg a = false ∧ isError a = false) ∨
    (isMessageArg a = false ∧ isContextArg a = true ∧ isError a = false) ∨
    (isMessageArg a = false ∧ isContextArg a = false ∧ isError a = true) := by
  cases a with
  | vObj fs =>
    rcases h : isError (vObj fs) with _ | _
    · exact Or.inr (Or.inl (by simp [isMessageArg, isContextArg, isObjectType, isNull, h]))
    · exact Or.inr (Or.inr (by simp [isMessageArg, isContextArg, isObjectType, isNull, h]))
  | vArr xs =>
    exact Or.inr (Or.inl (by simp [isMessageArg, isContextArg, isObjectType, isNull, isError]))
  | vErr n m st =>
    exact Or.inr (Or.inr (by simp [isMessageArg, isContextArg, isObjectType, isNull, isError]))
  | vNull => exact Or.inl (by simp [isMessageArg, isContextArg, isObjectType, isNull, isError])
  | vUndefined => exact Or.inl (by simp [isMessageArg, isContextArg, isObjectType, isNull, isError])
  | vBool b => exact Or.inl (by simp [isMessageArg, isContextArg, isObjectType, isNull, isError])
  | vNum n => exact Or.inl (by simp [isMessageArg, isContextArg, isObjectType, isNull, isError])
  | vStr s => exact Or.inl (by simp [isMessageArg, isContextArg, isObjectType, isNull, isError])

theorem length_filter_three {α : Type} (p q r : α → Bool) (l : List α)
    (h : ∀ a ∈ l,
      (p a = true ∧ q a = false ∧ r a = false) ∨
      (p a = false ∧ q a = true ∧ r a = false) ∨
      (p a = false ∧ q a = false ∧ r a = true)) :
    (l.filter p).length + (l.filter q).length + (l.filter r).length = l.length := by
  induction l with
  | nil => simp
  | cons a l ih =>
    have ha := h a (List.mem_cons_self a l)
    have ih' := ih fun b hb => h b (List.mem_cons_of_mem a hb)
    rcases ha with ⟨h1, h2, h3⟩ | ⟨h1, h2, h3⟩ | ⟨h1, h2, h3⟩ <;>
      simp [List.filter_cons, h1, h2, h3, List.length_cons] <;> omega

/-! ## Lemmas about message rendering -/

theorem serializeArg_fragment (a : JSVal) (h : isMessageArg a = true) :
    serializeArg a = renderFragmentSpec a := by
  cases a <;> simp [isMessageArg, isObjectType, isNull] at h <;>
    simp [serializeArg, renderFragmentSpec]

theorem serializeArgs_eq_renderSpec (args : List JSVal) :
    serializeArgs (args.filter isMessageArg) =
      String.intercalate " " ((args.filter isMessageArg).map renderFragmentSpec) := by
  unfold serializeArgs
  congr 1
  exact List.map_congr_left fun a ha => serializeArg_fragment a (List.of_mem_filter ha)

theorem logAt_eq_some (ts : String) (cur lvl : LogLevel) (args : List JSVal)
    (out : ConsoleStream × Entry) (h : logAt ts cur lvl args = some out) :
    out = (consoleFor lvl, buildEntry ts lvl args) ∧ LEVELS lvl ≤ LEVELS cur := by
  unfold logAt at h
  by_cases hg : LEVELS lvl > LEVELS cur
  · rw [if_pos hg] at h
    cases h
  · rw [if_neg hg] at h
    exact ⟨(Option.some.inj h).symm, by omega⟩

theorem getKey_buildEntry_errorFields (ts : String) (lvl : LogLevel) (args : List JSVal)
    (e0 : JSVal) (rest : List JSVal) (h : args.filter isError = e0 :: rest) :
    getKey (buildEntry ts lvl args) "error" = some (mapErrorVal e0) ∧
    getKey (buildEntry ts lvl args) "error_count" = some (vNum (e0 :: rest).length) ∧
    (rest ≠ [] →
      getKey (buildEntry ts lvl args) "errors" = some (vArr ((e0 :: rest).map mapErrorVal))) ∧
    (rest = [] →
      getKey (buildEntry ts lvl args) "errors" = getKey (preEntry ts lvl args) "errors") := by
  unfold buildEntry
  rw [h]
  rcases rest with _ | ⟨r, rest⟩
  · simp [getKey_setKey]
  · refine ⟨?_, ?_, fun _ => ?_, fun hh => by cases hh⟩ <;>
      simp [getKey_setKey, List.length_cons]

/-! ## The claims -/

/-- C1: a per-level call at severity `level` against threshold `current` emits
exactly one line iff `rank(level) ≤ rank(current)` where the ranks are
error 0, warn 1, info 2, debug 3, trace 4; a gated call produces nothing and
does no downstream work. -/
theorem claim1_gating (ts : String) (current level : LogLevel) (args : List JSVal) :
    ((logAt ts current level args).isSome ↔ LEVELS level ≤ LEVELS current) ∧
    (LEVELS current < LEVELS level → logAt ts current level args = none) ∧
    (LEVELS level ≤ LEVELS current →
      logAt ts current level args = some (consoleFor level, buildEntry ts level args)) ∧
    LEVELS .error = 0 ∧ LEVELS .warn = 1 ∧ LEVELS .info = 2 ∧
    LEVELS .debug = 3 ∧ LEVELS .trace = 4 := by
  unfold logAt
  by_cases h : LEVELS level > LEVELS current
  · simp only [if_pos h]
    exact ⟨by simp; omega, fun _ => by simp, fun hc => absurd hc (by omega), rfl, rfl, rfl, rfl, rfl⟩
  · simp only [if_neg h]
    exact ⟨by simp; omega, fun hc => absurd hc (by omega), fun _ => by simp, rfl, rfl, rfl, rfl, rfl⟩

/-- Witness for C1: threshold `error` gates a `debug` call (the spec's
scenario), threshold `info` lets a `warn` call through. -/
theorem claim1_gating_witness :
    logAt "2023-10-01T12:00:00.000Z" .error .debug [vStr "hidden"] = none ∧
    logAt "2023-10-01T12:00:00.000Z" .info .warn [] =
      some (.warnS, [("timestamp", vStr "2023-10-01T12:00:00.000Z"), ("level", vStr "warn")]) :=
  ⟨(claim1_gating "2023-10-01T12:00:00.000Z" .error .debug [vStr "hidden"]).2.1 (by decide),
   by
     have h := (claim1_gating "2023-10-01T12:00:00.000Z" .info .warn []).2.2.1 (by decide)
     rw [h]
     rfl⟩

/-- C2: classification partitions the ordered argument list into message
fragments, context objects and error-like values; each group is an
order-preserving sublist, the group sizes sum to the argument count, every
argument falls in exactly one group, and in particular an error-like value is
never also a context object. -/
theorem claim2_classification (args : List JSVal) :
    List.Sublist (args.filter isMessageArg) args ∧
    List.Sublist (args.filter isContextArg) args ∧
    List.Sublist (args.filter isError) args ∧
    (args.filter isMessageArg).length + (args.filter isContextArg).length +
      (args.filter isError).length = args.length ∧
    (∀ a : JSVal,
      (isMessageArg a = true ∧ isContextArg a = false ∧ isError a = false) ∨
      (isMessageArg a = false ∧ isContextArg a = true ∧ isError a = false) ∨
      (isMessageArg a = false ∧ isContextArg a = false ∧ isError a = true)) ∧
    (∀ a : JSVal, isError a = true → isContextArg a = false) := by
  refine ⟨List.filter_sublist args, List.filter_sublist args, List.filter_sublist args,
    length_filter_three _ _ _ _ (fun a _ => classify_exact a), classify_exact, ?_⟩
  intro a ha
  rcases classify_exact a with ⟨_, _, h3⟩ | ⟨_, _, h3⟩ | ⟨_, h2, _⟩
  · exact absurd ha (by simp [h3])
  · exact absurd ha (by simp [h3])
  · exact h2

/-- Witness for C2: a native error is not classified as a context object. -/
theorem claim2_classification_witness :
    isContextArg (vErr "Error" "boom" none) = false :=
  (claim2_classification []).2.2.2.2.2 (vErr "Error" "boom" none) (by decide)

/-- C7: `setLogLevel` with an invalid level raises an error whose message is
exactly `Invalid log level: <value>` and leaves the threshold (and hence all
subsequent gating) unchanged; with a valid level it sets the threshold to
that level. -/
theorem claim7_setLogLevel (cur : LogLevel) (input : String) :
    (isLogLevel (some input) = false →
      applySetLogLevel cur input = (cur, some ("Invalid log level: " ++ input)) ∧
      ∀ (ts : String) (lvl : LogLevel) (args : List JSVal),
        logAt ts (applySetLogLevel cur input).1 lvl args = logAt ts cur lvl args) ∧
    (∀ l : LogLevel, parseLevel input = some l → applySetLogLevel cur input = (l, none)) := by
  constructor
  · intro h
    have hp : parseLevel input = none := by
      simp only [isLogLevel] at h
      rcases hh : parseLevel input with _ | l
      · rfl
      · rw [hh] at h
        simp at h
    constructor
    · simp [applySetLogLevel, setLogLevel, hp]
    · intro ts lvl args
      simp [applySetLogLevel, setLogLevel, hp]
  · intro l hl
    simp [applySetLogLevel, setLogLevel, hl]

/-- Witness for C7: `bogus` throws with the exact message and keeps the
threshold, `info` becomes the new threshold. -/
theorem claim7_setLogLevel_witness :
    applySetLogLevel .warn "bogus" = (.warn, some "Invalid log level: bogus") ∧
    applySetLogLevel .error "info" = (.info, none) :=
  ⟨((claim7_setLogLevel .warn "bogus").1 (by decide)).1,
   (claim7_setLogLevel .error "info").2 .info (by decide)⟩

/-- C8: construction with a valid severity name adopts it, construction with
an invalid or absent one falls back to `warn`; construction is a total
function and never raises. -/
theorem claim8_construct :
    (∀ (s : String) (l : LogLevel), parseLevel s = some l → construct (some s) = l) ∧
    (∀ s : String, parseLevel s = none → construct (some s) = .warn) ∧
    construct none = .warn := by
  refine ⟨?_, ?_, rfl⟩
  · intro s l h
    have hs : s ≠ "" := by
      intro he
      subst he
      have h0 : parseLevel "" = none := by decide
      rw [h0] at h
      cases h
    simp only [construct]
    rw [if_neg hs, h]
  · intro s h
    simp only [construct]
    by_cases hs : s = ""
    · rw [if_pos hs]
    · rw [if_neg hs, h]

/-- Witness for C8: `debug` is adopted, `bogus` falls back to `warn`. -/
theorem claim8_construct_witness :
    construct (some "debug") = .debug ∧ construct (some "bogus") = .warn :=
  ⟨claim8_construct.1 "debug" .debug (by decide),
   claim8_construct.2.1 "bogus" (by decide)⟩

/-- C4: in a non-gated call, every entry field outside the six keys the
logger itself writes comes from the shallow merge of the context objects in
argument order, the last context object owning the key winning; and every
field of the entry is either one of those six keys or an own property of some
context argument, so primitives and `null` arguments never surface as
top-level fields. -/
theorem claim4_merge (ts : String) (cur lvl : LogLevel) (args : List JSVal)
    (out : ConsoleStream × Entry) (h : logAt ts cur lvl args = some out) :
    (∀ k : String, k ≠ "timestamp" → k ≠ "level" → k ≠ "message" → k ≠ "error" →
      k ≠ "error_count" → k ≠ "errors" →
      getKey out.2 k = lastCtxVal (args.filter isContextArg) k) ∧
    (∀ k : String, (getKey out.2 k).isSome = true →
      k = "timestamp" ∨ k = "level" ∨ k = "message" ∨ k = "error" ∨ k = "error_count" ∨
        k = "errors" ∨
        ∃ o ∈ args.filter isContextArg, (ownFields o).any (fun p => p.1 = k) = true) := by
  obtain ⟨hout, -⟩ := logAt_eq_some ts cur lvl args out h
  subst hout
  have main : ∀ k : String, k ≠ "timestamp" → k ≠ "level" → k ≠ "message" → k ≠ "error" →
      k ≠ "error_count" → k ≠ "errors" →
      getKey (buildEntry ts lvl args) k = lastCtxVal (args.filter isContextArg) k := by
    intro k h1 h2 h3 h4 h5 h6
    rw [getKey_buildEntry_of_ne _ _ _ _ h4 h5 h6, getKey_preEntry,
      if_neg (fun hc => h3 hc.1)]
    rcases hl : lastCtxVal (args.filter isContextArg) k with _ | v
    · have hts : ¬("timestamp" = k) := fun hh => h1 hh.symm
      have hlv : ¬("level" = k) := fun hh => h2 hh.symm
      simp [getKey, hts, hlv]
    · simp
  refine ⟨main, fun k hk => ?_⟩
  by_cases h1 : k = "timestamp"
  · exact Or.inl h1
  by_cases h2 : k = "level"
  · exact Or.inr (Or.inl h2)
  by_cases h3 : k = "message"
  · exact Or.inr (Or.inr (Or.inl h3))
  by_cases h4 : k = "error"
  · exact Or.inr (Or.inr (Or.inr (Or.inl h4)))
  by_cases h5 : k = "error_count"
  · exact Or.inr (Or.inr (Or.inr (Or.inr (Or.inl h5))))
  by_cases h6 : k = "errors"
  · exact Or.inr (Or.inr (Or.inr (Or.inr (Or.inr (Or.inl h6)))))
  refine Or.inr (Or.inr (Or.inr (Or.inr (Or.inr (Or.inr ?_)))))
  rw [main k h1 h2 h3 h4 h5 h6] at hk
  unfold lastCtxVal at hk
  rcases hfind : (args.filter isContextArg).reverse.find?
      (fun o => (ownFields o).any fun p => p.1 = k) with _ | o
  · rw [hfind] at hk
    simp at hk
  · exact ⟨o, List.mem_reverse.1 (List.mem_of_find?_eq_some hfind),
      by simpa using List.find?_some hfind⟩

/-- Witness for C4: with a gated-in call carrying two colliding context
objects, the later value wins, and the primitive argument `"x"` creates no
field. -/
theorem claim4_merge_witness :
    getKey [("timestamp", vStr "T"), ("level", vStr "info"), ("a", vNum 2), ("message", vStr "x")]
        "a" = lastCtxVal ([vStr "x", vObj [("a", vNum 1)], vObj [("a", vNum 2)]].filter isContextArg) "a" ∧
    getKey [("timestamp", vStr "T"), ("level", vStr "info"), ("a", vNum 2), ("message", vStr "x")]
        "a" = some (vNum 2) :=
  ⟨by
    have h := (claim4_merge "T" .trace .info [vStr "x", vObj [("a", vNum 1)], vObj [("a", vNum 2)]]
      (.infoS, [("timestamp", vStr "T"), ("level", vStr "info"), ("a", vNum 2), ("message", vStr "x")])
      (by rfl)).1 "a" (by decide) (by decide) (by decide) (by decide) (by decide) (by decide)
    exact h,
   by rfl⟩

/-- C10: `timestamp` and `level` are written before the context merge, so a
context object owning those keys replaces the base value; the fragment
message is assigned after the merge, so a non-empty rendered string always
wins the `message` key, and a context-supplied `message` survives exactly
when the fragments render to the empty string. -/
theorem claim10_precedence (ts : String) (cur lvl : LogLevel) (args : List JSVal)
    (out : ConsoleStream × Entry) (h : logAt ts cur lvl args = some out) :
    (∀ v : JSVal, lastCtxVal (args.filter isContextArg) "timestamp" = some v →
      getKey out.2 "timestamp" = some v) ∧
    (lastCtxVal (args.filter isContextArg) "timestamp" = none →
      getKey out.2 "timestamp" = some (vStr ts)) ∧
    (∀ v : JSVal, lastCtxVal (args.filter isContextArg) "level" = some v →
      getKey out.2 "level" = some v) ∧
    (lastCtxVal (args.filter isContextArg) "level" = none →
      getKey out.2 "level" = some (vStr (levelName lvl))) ∧
    (serializeArgs (args.filter isMessageArg) ≠ "" →
      getKey out.2 "message" = some (vStr (serializeArgs (args.filter isMessageArg)))) ∧
    (serializeArgs (args.filter isMessageArg) = "" →
      getKey out.2 "message" = lastCtxVal (args.filter isContextArg) "message") := by
  obtain ⟨hout, -⟩ := logAt_eq_some ts cur lvl args out h
  subst hout
  refine ⟨?_, ?_, ?_, ?_, ?_, ?_⟩
  · intro v hv
    show getKey (buildEntry ts lvl args) "timestamp" = some v
    rw [getKey_buildEntry_of_ne _ _ _ _ (by decide) (by decide) (by decide), getKey_preEntry,
      if_neg (fun hc => absurd hc.1 (by decide)), hv]
  · intro hv
    show getKey (buildEntry ts lvl args) "timestamp" = some (vStr ts)
    rw [getKey_buildEntry_of_ne _ _ _ _ (by decide) (by decide) (by decide), getKey_preEntry,
      if_neg (fun hc => absurd hc.1 (by decide)), hv]
    rfl
  · intro v hv
    show getKey (buildEntry ts lvl args) "level" = some v
    rw [getKey_buildEntry_of_ne _ _ _ _ (by decide) (by decide) (by decide), getKey_preEntry,
      if_neg (fun hc => absurd hc.1 (by decide)), hv]
  · intro hv
    show getKey (buildEntry ts lvl args) "level" = some (vStr (levelName lvl))
    rw [getKey_buildEntry_of_ne _ _ _ _ (by decide) (by decide) (by decide), getKey_preEntry,
      if_neg (fun hc => absurd hc.1 (by decide)), hv]
    rfl
  · intro hm
    show getKey (buildEntry ts lvl args) "message" =
      some (vStr (serializeArgs (args.filter isMessageArg)))
    rw [getKey_buildEntry_of_ne _ _ _ _ (by decide) (by decide) (by decide), getKey_preEntry,
      if_pos ⟨rfl, hm⟩]
  · intro hm
    show getKey (buildEntry ts lvl args) "message" = lastCtxVal (args.filter isContextArg) "message"
    rw [getKey_buildEntry_of_ne _ _ _ _ (by decide) (by decide) (by decide), getKey_preEntry,
      if_neg (fun hc => hc.2 hm)]
    rcases hl : lastCtxVal (args.filter isContextArg) "message" with _ | v
    · rfl
    · rfl

/-- Witness for C10: a context object supplies `level` and `message`; with no
fragments, the context `level` replaces the base value and the context
`message` survives. -/
theorem claim10_precedence_witness :
    getKey [("timestamp", vStr "T"), ("level", vStr "L"), ("message", vStr "ctx")] "level" =
      some (vStr "L") ∧
    getKey [("timestamp", vStr "T"), ("level", vStr "L"), ("message", vStr "ctx")] "message" =
      lastCtxVal ([vObj [("message", vStr "ctx"), ("level", vStr "L")]].filter isContextArg)
        "message" :=
  ⟨(claim10_precedence "T" .trace .info [vObj [("message", vStr "ctx"), ("level", vStr "L")]]
      (.infoS, [("timestamp", vStr "T"), ("level", vStr "L"), ("message", vStr "ctx")])
      (by rfl)).2.2.1 (vStr "L") (by rfl),
   (claim10_precedence "T" .trace .info [vObj [("message", vStr "ctx"), ("level", vStr "L")]]
      (.infoS, [("timestamp", vStr "T"), ("level", vStr "L"), ("message", vStr "ctx")])
      (by rfl)).2.2.2.2.2 (by rfl)⟩

/-- C5: the rendered message is each fragment converted to text (strings pass
through, `undefined` renders as the text `undefined`, everything else is
JSON-encoded) joined by single spaces; and on a call consisting solely of
fragments, the `message` field is present iff that string is non-empty, in
which case it holds it. -/
theorem claim5_message (ts : String) (cur lvl : LogLevel) (args : List JSVal)
    (hfrag : ∀ a ∈ args, isMessageArg a = true) (hgate : LEVELS lvl ≤ LEVELS cur) :
    serializeArgs (args.filter isMessageArg) =
      String.intercalate " " ((args.filter isMessageArg).map renderFragmentSpec) ∧
    ∃ entry : Entry, logAt ts cur lvl args = some (consoleFor lvl, entry) ∧
      ((getKey entry "message").isSome = true ↔ serializeArgs args ≠ "") ∧
      (serializeArgs args ≠ "" → getKey entry "message" = some (vStr (serializeArgs args))) := by
  have hm : args.filter isMessageArg = args := List.filter_eq_self.2 hfrag
  have hc : args.filter isContextArg = [] := by
    rw [List.filter_eq_nil_iff]
    intro a ha
    rcases classify_exact a with ⟨_, h2, _⟩ | ⟨h1, _, _⟩ | ⟨h1, _, _⟩
    · simp [h2]
    · rw [hfrag a ha] at h1
      cases h1
    · rw [hfrag a ha] at h1
      cases h1
  refine ⟨serializeArgs_eq_renderSpec args, buildEntry ts lvl args, ?_, ?_, ?_⟩
  · unfold logAt
    rw [if_neg (by omega)]
  · rw [getKey_buildEntry_of_ne _ _ _ _ (by decide) (by decide) (by decide), getKey_preEntry,
      hm, hc]
    by_cases hmm : serializeArgs args = ""
    · rw [if_neg (fun hcc => hcc.2 hmm)]
      simp [lastCtxVal, getKey, hmm]
    · rw [if_pos ⟨rfl, hmm⟩]
      simp [hmm]
  · intro hne
    rw [getKey_buildEntry_of_ne _ _ _ _ (by decide) (by decide) (by decide), getKey_preEntry,
      hm, hc, if_pos ⟨rfl, hne⟩]

/-- Witness for C5: the call `info('hello', 'world')`. -/
theorem claim5_message_witness :
    serializeArgs ([vStr "hello", vStr "world"].filter isMessageArg) =
      String.intercalate " "
        (([vStr "hello", vStr "world"].filter isMessageArg).map renderFragmentSpec) ∧
    ∃ entry : Entry,
      logAt "T" .trace .info [vStr "hello", vStr "world"] = some (consoleFor .info, entry) ∧
      ((getKey entry "message").isSome = true ↔ serializeArgs [vStr "hello", vStr "world"] ≠ "") ∧
      (serializeArgs [vStr "hello", vStr "world"] ≠ "" →
        getKey entry "message" = some (vStr (serializeArgs [vStr "hello", vStr "world"]))) :=
  claim5_message "T" .trace .info [vStr "hello", vStr "world"] (by decide) (by decide)

/-- A value on which `isUndef` is true is `undefined` itself. -/
theorem eq_vUndefined_of_isUndef (v : JSVal) (h : isUndef v = true) : v = vUndefined := by
  cases v <;> first
    | rfl
    | exact absurd h (by simp [isUndef])

theorem mapError_lookups (nm ms st cd : JSVal) :
    getProp (vObj ([("name", if nm.isStr then nm else vStr "Error"),
        ("message", if ms.isStr then ms else vStr (jsToString (jsNullish ms (vStr "")))),
        ("stack", if st.isStr then st else vUndefined)]
        ++ (if isUndef cd then [] else [("code", cd)]))) "name" =
      some (if nm.isStr then nm else vStr "Error") ∧
    getProp (vObj ([("name", if nm.isStr then nm else vStr "Error"),
        ("message", if ms.isStr then ms else vStr (jsToString (jsNullish ms (vStr "")))),
        ("stack", if st.isStr then st else vUndefined)]
        ++ (if isUndef cd then [] else [("code", cd)]))) "message" =
      some (if ms.isStr then ms else vStr (jsToString (jsNullish ms (vStr "")))) ∧
    getProp (vObj ([("name", if nm.isStr then nm else vStr "Error"),
        ("message", if ms.isStr then ms else vStr (jsToString (jsNullish ms (vStr "")))),
        ("stack", if st.isStr then st else vUndefined)]
        ++ (if isUndef cd then [] else [("code", cd)]))) "stack" =
      some (if st.isStr then st else vUndefined) ∧
    getProp (vObj ([("name", if nm.isStr then nm else vStr "Error"),
        ("message", if ms.isStr then ms else vStr (jsToString (jsNullish ms (vStr "")))),
        ("stack", if st.isStr then st else vUndefined)]
        ++ (if isUndef cd then [] else [("code", cd)]))) "code" = some cd := by
  refine ⟨by simp [getProp, List.find?], by simp [getProp, List.find?],
    by simp [getProp, List.find?], ?_⟩
  rcases h : isUndef cd with _ | _
  · simp [getProp, List.find?, h]
  · simp [getProp, List.find?, h, eq_vUndefined_of_isUndef _ h]

/-- On any base other than `null`/`undefined`, a property read succeeds. -/
theorem getProp_eq_some_of_ne (e : JSVal) (k : String)
    (h1 : e ≠ vNull) (h2 : e ≠ vUndefined) : getProp e k = some (getPropD e k) := by
  cases e with
  | vNull => exact absurd rfl h1
  | vUndefined => exact absurd rfl h2
  | vBool b => rfl
  | vNum n => rfl
  | vStr s => rfl
  | vArr xs => rfl
  | vObj fs => rfl
  | vErr n m st => rfl

/-- On any base other than `null`/`undefined`, the destructuring in
`mapError` succeeds and yields the normalized record over the read values. -/
theorem mapError_eq_of_ne (e : JSVal) (h1 : e ≠ vNull) (h2 : e ≠ vUndefined) :
    mapError e = some (vObj
      ([("name", if (getPropD e "name").isStr then getPropD e "name" else vStr "Error"),
        ("message", if (getPropD e "message").isStr then getPropD e "message"
          else vStr (jsToString (jsNullish (getPropD e "message") (vStr "")))),
        ("stack", if (getPropD e "stack").isStr then getPropD e "stack" else vUndefined)]
       ++ (if isUndef (getPropD e "code") then [] else [("code", getPropD e "code")]))) := by
  cases e with
  | vNull => exact absurd rfl h1
  | vUndefined => exact absurd rfl h2
  | vBool b => rfl
  | vNum n => rfl
  | vStr s => rfl
  | vArr xs => rfl
  | vObj fs => rfl
  | vErr n m st => rfl

/-- Values passing the `isError` filter are never nullish, so neither
normalization throws on them: the pipeline defaults of `mapErrorVal` and
`mapErrorBVal` are dead code. -/
theorem mapError_isSome_of_isError (e : JSVal) (h : isError e = true) :
    (mapError e).isSome = true ∧ (mapErrorB e).isSome = true := by
  cases e with
  | vObj fs => exact ⟨rfl, rfl⟩
  | vErr n m st => exact ⟨rfl, rfl⟩
  | vNull => exact absurd h (by simp [isError])
  | vUndefined => exact absurd h (by simp [isError])
  | vBool b => exact absurd h (by simp [isError])
  | vNum n => exact absurd h (by simp [isError])
  | vStr s => exact absurd h (by simp [isError])
  | vArr xs => exact absurd h (by simp [isError])

/-- Counterexample to C6 as stated: the claim quantifies over every input
value, but at `null` (and `undefined`) the destructuring inside `mapError`
throws a TypeError — modelled as `none` — instead of returning a record. -/
theorem claim6_counterexample :
    mapError vNull = none ∧ mapError vUndefined = none ∧
    getProp vNull "name" = none ∧ getProp vUndefined "name" = none :=
  ⟨rfl, rfl, rfl, rfl⟩

/-- C6 (amended): for every input other than `null`/`undefined` — in
particular for every error-like value, malformed or not — normalization
returns a record keeping a string `name` and falling back to `Error`,
keeping a string `message` and otherwise coercing it (`null`/`undefined`
become the empty string), keeping `stack` only when it is already a string
(it reads as `undefined` otherwise), and passing a `code` property through
unchanged; on `null`/`undefined` the destructuring throws. -/
theorem claim6_mapError (e : JSVal) (h1 : e ≠ vNull) (h2 : e ≠ vUndefined) :
    (mapError e).isSome = true ∧
    (mapError e).bind (fun r => getProp r "name") =
      some (if (getPropD e "name").isStr then getPropD e "name" else vStr "Error") ∧
    (mapError e).bind (fun r => getProp r "message") =
      some (if (getPropD e "message").isStr then getPropD e "message"
        else vStr (jsToString (jsNullish (getPropD e "message") (vStr "")))) ∧
    ((getPropD e "message" = vNull ∨ getPropD e "message" = vUndefined) →
      (mapError e).bind (fun r => getProp r "message") = some (vStr "")) ∧
    (mapError e).bind (fun r => getProp r "stack") =
      some (if (getPropD e "stack").isStr then getPropD e "stack" else vUndefined) ∧
    (mapError e).bind (fun r => getProp r "code") = some (getPropD e "code") := by
  rw [mapError_eq_of_ne e h1 h2]
  obtain ⟨l1, l2, l3, l4⟩ := mapError_lookups (getPropD e "name") (getPropD e "message")
    (getPropD e "stack") (getPropD e "code")
  refine ⟨rfl, l1, l2, ?_, l3, l4⟩
  intro hm
  have hstr : (getPropD e "message").isStr = false := by
    rcases hm with hm | hm <;> rw [hm] <;> rfl
  have hnul : jsNullish (getPropD e "message") (vStr "") = vStr "" := by
    rcases hm with hm | hm <;> rw [hm] <;> rfl
  have hfix : some (if (getPropD e "message").isStr = true then getPropD e "message"
      else vStr (jsToString (jsNullish (getPropD e "message") (vStr "")))) =
      some (vStr "") := by
    rw [if_neg (show ¬((getPropD e "message").isStr = true) by simp [hstr]), hnul]
    simp [jsToString]
  exact l2.trans hfix

/-- Witness for the amended C6: a malformed error-like object with a `null`
message normalizes without throwing, to an empty-string message. -/
theorem claim6_mapError_witness :
    (mapError (vObj [("name", vStr "E"), ("message", vNull)])).isSome = true ∧
    (mapError (vObj [("name", vStr "E"), ("message", vNull)])).bind
      (fun r => getProp r "message") = some (vStr "") :=
  ⟨(claim6_mapError (vObj [("name", vStr "E"), ("message", vNull)])
      (fun h => JSVal.noConfusion h) (fun h => JSVal.noConfusion h)).1,
   (claim6_mapError (vObj [("name", vStr "E"), ("message", vNull)])
      (fun h => JSVal.noConfusion h) (fun h => JSVal.noConfusion h)).2.2.2.1 (Or.inl rfl)⟩

/-- Counterexample to C9 as stated: a non-gated `info` call whose single
argument is the context object `\x7blevel: "not-a-level"\x7d` emits an entry
whose `level` field (also after the JSON round trip) holds a string that is
not one of the five level names, even though the construction timestamp is a
well-formed ISO-8601 instant. -/
theorem claim9_counterexample :
    logAt "2023-10-01T12:00:00.000Z" .trace .info [vObj [("level", vStr "not-a-level")]] =
      some (.infoS,
        [("timestamp", vStr "2023-10-01T12:00:00.000Z"), ("level", vStr "not-a-level")]) ∧
    isISO8601 "2023-10-01T12:00:00.000Z" = true ∧
    getKey (roundTripFields
        [("timestamp", vStr "2023-10-01T12:00:00.000Z"), ("level", vStr "not-a-level")])
      "level" = some (vStr "not-a-level") ∧
    "not-a-level" ∉ LogLevels :=
  ⟨rfl, by decide, rfl, by decide⟩

/-- C9 (amended): for a non-gated call whose context objects supply neither a
`timestamp` nor a `level` key, the emitted entry — also after dropping the
fields a JSON round trip loses — carries the ISO-8601 construction instant
under `timestamp` and one of the five level names under `level`. -/
theorem claim9_roundtrip (ts : String) (cur lvl : LogLevel) (args : List JSVal)
    (out : ConsoleStream × Entry)
    (hiso : isISO8601 ts = true)
    (hts : lastCtxVal (args.filter isContextArg) "timestamp" = none)
    (hlv : lastCtxVal (args.filter isContextArg) "level" = none)
    (h : logAt ts cur lvl args = some out) :
    getKey (roundTripFields out.2) "timestamp" = some (vStr ts) ∧
    isISO8601 ts = true ∧
    getKey (roundTripFields out.2) "level" = some (vStr (levelName lvl)) ∧
    levelName lvl ∈ LogLevels := by
  obtain ⟨hout, -⟩ := logAt_eq_some ts cur lvl args out h
  subst hout
  have h1 : getKey (buildEntry ts lvl args) "timestamp" = some (vStr ts) := by
    rw [getKey_buildEntry_of_ne _ _ _ _ (by decide) (by decide) (by decide), getKey_preEntry,
      if_neg (fun hc => absurd hc.1 (by decide)), hts]
    rfl
  have h2 : getKey (buildEntry ts lvl args) "level" = some (vStr (levelName lvl)) := by
    rw [getKey_buildEntry_of_ne _ _ _ _ (by decide) (by decide) (by decide), getKey_preEntry,
      if_neg (fun hc => absurd hc.1 (by decide)), hlv]
    rfl
  exact ⟨getKey_roundTripFields _ _ _ rfl h1, hiso, getKey_roundTripFields _ _ _ rfl h2,
    by cases lvl <;> simp [levelName, LogLevels]⟩

/-- Witness for the amended C9: a plain `warn` call with a string message. -/
theorem claim9_roundtrip_witness :
    getKey (roundTripFields
        [("timestamp", vStr "2023-10-01T12:00:00.000Z"), ("level", vStr "warn"),
         ("message", vStr "hi")]) "timestamp" = some (vStr "2023-10-01T12:00:00.000Z") ∧
    isISO8601 "2023-10-01T12:00:00.000Z" = true ∧
    getKey (roundTripFields
        [("timestamp", vStr "2023-10-01T12:00:00.000Z"), ("level", vStr "warn"),
         ("message", vStr "hi")]) "level" = some (vStr (levelName .warn)) ∧
    levelName .warn ∈ LogLevels :=
  claim9_roundtrip "2023-10-01T12:00:00.000Z" .trace .warn [vStr "hi"]
    (.warnS,
      [("timestamp", vStr "2023-10-01T12:00:00.000Z"), ("level", vStr "warn"),
       ("message", vStr "hi")])
    (by decide) (by rfl) (by rfl) (by rfl)

/-- Counterexample to C3 as stated: the claim describes the `part_001`
variant as attaching an `errors` array of all normalized errors, but that
variant copies `name`, `message` and `stack` raw; on the malformed
error-like `\x7bname: 42, message: "m"\x7d` its array element keeps the number
`42` as `name`, while the normalized record replaces it with `"Error"`, so
the attached element is not the normalized error. -/
theorem claim3_counterexample :
    buildEntryB "T" .error [vObj [("name", vNum 42), ("message", vStr "m")]] =
      [("timestamp", vStr "T"), ("level", vStr "error"),
       ("errors", vArr [vObj [("name", vNum 42), ("message", vStr "m"), ("stack", vUndefined)]])] ∧
    mapError (vObj [("name", vNum 42), ("message", vStr "m")]) =
      some (vObj [("name", vStr "Error"), ("message", vStr "m"), ("stack", vUndefined)]) ∧
    vObj [("name", vNum 42), ("message", vStr "m"), ("stack", vUndefined)] ≠
      vObj [("name", vStr "Error"), ("message", vStr "m"), ("stack", vUndefined)] :=
  ⟨rfl, rfl, by simp⟩

/-- C3 (amended): the two reference variants build extensionally equal
entries on every key other than the error-attachment keys; on a call with
error-like arguments, the `part_001` variant attaches only an `errors` array
of raw `\x7bname, message, stack\x7d` copies of all error-like arguments (order
preserved, no normalization), while the `src/log.ts` variant attaches the
first normalized error under `error` and the count under `error_count`,
adding an `errors` array of all normalized errors only when there is more
than one; the two variants disagree on a concrete single-error input. -/
theorem claim3_variants :
    (∀ (ts : String) (lvl : LogLevel) (args : List JSVal) (k : String),
      k ≠ "error" → k ≠ "error_count" → k ≠ "errors" →
      getKey (buildEntry ts lvl args) k = getKey (buildEntryB ts lvl args) k) ∧
    (∀ (ts : String) (lvl : LogLevel) (args : List JSVal) (e0 : JSVal) (rest : List JSVal),
      args.filter isError = e0 :: rest →
      getKey (buildEntryB ts lvl args) "errors" = some (vArr ((e0 :: rest).map mapErrorBVal)) ∧
      getKey (buildEntry ts lvl args) "error" = some (mapErrorVal e0) ∧
      getKey (buildEntry ts lvl args) "error_count" = some (vNum (e0 :: rest).length) ∧
      (rest ≠ [] →
        getKey (buildEntry ts lvl args) "errors" = some (vArr ((e0 :: rest).map mapErrorVal))) ∧
      (rest = [] → lastCtxVal (args.filter isContextArg) "errors" = none →
        getKey (buildEntry ts lvl args) "errors" = none) ∧
      (lastCtxVal (args.filter isContextArg) "error" = none →
        getKey (buildEntryB ts lvl args) "error" = none) ∧
      (lastCtxVal (args.filter isContextArg) "error_count" = none →
        getKey (buildEntryB ts lvl args) "error_count" = none)) ∧
    buildEntry "T" .error [vErr "Error" "boom" (some "S")] ≠
      buildEntryB "T" .error [vErr "Error" "boom" (some "S")] := by
  refine ⟨?_, ?_, ?_⟩
  · intro ts lvl args k h1 h2 h3
    rw [getKey_buildEntry_of_ne _ _ _ _ h1 h2 h3, getKey_buildEntryB_of_ne _ _ _ _ h3]
  · intro ts lvl args e0 rest hf
    obtain ⟨hA1, hA2, hA3, hA4⟩ := getKey_buildEntry_errorFields ts lvl args e0 rest hf
    refine ⟨?_, hA1, hA2, hA3, ?_, ?_, ?_⟩
    · unfold buildEntryB
      rw [hf]
      simp [getKey_setKey]
    · intro hr hl
      rw [hA4 hr, getKey_preEntry, if_neg (fun hc => absurd hc.1 (by decide)), hl]
      rfl
    · intro hl
      rw [getKey_buildEntryB_of_ne _ _ _ _ (by decide), getKey_preEntry,
        if_neg (fun hc => absurd hc.1 (by decide)), hl]
      rfl
    · intro hl
      rw [getKey_buildEntryB_of_ne _ _ _ _ (by decide), getKey_preEntry,
        if_neg (fun hc => absurd hc.1 (by decide)), hl]
      rfl
  · intro h
    have hA : getKey (buildEntry "T" .error [vErr "Error" "boom" (some "S")]) "error_count" =
        some (vNum 1) := rfl
    have hB : getKey (buildEntryB "T" .error [vErr "Error" "boom" (some "S")]) "error_count" =
        none := rfl
    rw [h, hB] at hA
    cases hA

/-- Witness for the amended C3: a call with one native error, checked
against both variants. -/
theorem claim3_variants_witness :
    getKey (buildEntryB "T" .warn [vErr "Error" "boom" (some "S")]) "errors" =
      some (vArr [mapErrorBVal (vErr "Error" "boom" (some "S"))]) ∧
    getKey (buildEntry "T" .warn [vErr "Error" "boom" (some "S")]) "error" =
      some (mapErrorVal (vErr "Error" "boom" (some "S"))) :=
  ⟨(claim3_variants.2.1 "T" .warn [vErr "Error" "boom" (some "S")]
      (vErr "Error" "boom" (some "S")) [] (by rfl)).1,
   (claim3_variants.2.1 "T" .warn [vErr "Error" "boom" (some "S")]
      (vErr "Error" "boom" (some "S")) [] (by rfl)).2.1⟩

end CloudLog
